import Mathlib

/-!
# Verification of the Sanity-to-R2 backup pipeline

Shallow embedding of the backup pipeline core (retry policy, dataset-export
verification, R2 storage client, retention manager, checksum sidecar
parsing, notifier, and the backup orchestrator) together with proofs of the
testable properties stated in the specification.

Machine integers of the source are modelled as `Nat` (all quantities
involved — delays, byte sizes, timestamps — are non-negative and far below
JavaScript safe-integer bounds in every claim considered).  Fallible
operations are modelled with `Except String`, mirroring thrown `Error`
values by their message strings.
-/

namespace Infra

/-! ## Retry policy (src/utils/retry.ts)

`withExponentialBackoff` runs `fn` for attempts `0 .. maxRetries`.  On a
failure at the last attempt, or on a failure the predicate refuses to
retry, the error is re-thrown.  Otherwise the loop sleeps
`min delayMs maxDelayMs` (the value also passed to the `onRetry` callback)
and multiplies `delayMs` by the backoff multiplier.  The embedding returns
the final result together with the list of delays passed to the retry
callback (equivalently, the delays slept); the source applies
`Math.round` after the multiplication, which is the identity on the `Nat`
multiplications performed here. -/

structure RetryOptions where
  maxRetries : Nat
  initialDelayMs : Nat
  maxDelayMs : Nat
  backoffMultiplier : Nat
  shouldRetry : String → Bool

/-- Options with every field at the source default
(`maxRetries = 3`, `initialDelayMs = 1000`, `maxDelayMs = 30000`,
`backoffMultiplier = 2`, `shouldRetry = () => true`). -/
def defaultRetryOptions : RetryOptions :=
  { maxRetries := 3
    initialDelayMs := 1000
    maxDelayMs := 30000
    backoffMultiplier := 2
    shouldRetry := fun _ => true }

/-- The retry loop of `withExponentialBackoff`, with `fuel` the number of
attempts still allowed after the current one (`maxRetries - attempt`) and
`delayMs` the current base delay.  `fn` maps attempt index to outcome. -/
def backoffLoop {α : Type} (fn : Nat → Except String α) (opts : RetryOptions) :
    Nat → Nat → Nat → Except String α × List Nat
  | 0, attempt, _ =>
    match fn attempt with
    | Except.ok a => (Except.ok a, [])
    | Except.error e => (Except.error e, [])
  | fuel' + 1, attempt, delayMs =>
    match fn attempt with
    | Except.ok a => (Except.ok a, [])
    | Except.error e =>
      if opts.shouldRetry e then
        let nextDelayMs := min delayMs opts.maxDelayMs
        let rest := backoffLoop fn opts fuel' (attempt + 1) (delayMs * opts.backoffMultiplier)
        (rest.1, nextDelayMs :: rest.2)
      else (Except.error e, [])

/-- Result of `withExponentialBackoff(fn, options)` plus delays passed to the
retry callback. -/
def withExponentialBackoff {α : Type} (fn : Nat → Except String α) (opts : RetryOptions) :
    Except String α × List Nat :=
  backoffLoop fn opts opts.maxRetries 0 opts.initialDelayMs

/-- Wrapper `withRetry(fn, maxRetries, delayMs)` forwards to `withExponentialBackoff`
with only `maxRetries` and `initialDelayMs` set; the other options keep
their defaults (in particular all errors are retryable). -/
def withRetry {α : Type} (fn : Nat → Except String α) (maxRetries delayMs : Nat) :
    Except String α × List Nat :=
  withExponentialBackoff fn
    { maxRetries := maxRetries
      initialDelayMs := delayMs
      maxDelayMs := 30000
      backoffMultiplier := 2
      shouldRetry := fun _ => true }

/-- An operation whose every attempt fails. -/
def AlwaysFails {α : Type} (fn : Nat → Except String α) : Prop :=
  ∀ n, ∃ e, fn n = Except.error e

theorem backoffLoop_zero {α : Type} (fn : Nat → Except String α) (opts : RetryOptions)
    (attempt delayMs : Nat) (e : String) (he : fn attempt = Except.error e) :
    backoffLoop fn opts 0 attempt delayMs = (Except.error e, []) := by
  simp only [backoffLoop, he]

theorem backoffLoop_succ {α : Type} (fn : Nat → Except String α) (opts : RetryOptions)
    (fuel' attempt delayMs : Nat) (e : String) (he : fn attempt = Except.error e)
    (hr : opts.shouldRetry e = true) :
    backoffLoop fn opts (fuel' + 1) attempt delayMs =
      ((backoffLoop fn opts fuel' (attempt + 1) (delayMs * opts.backoffMultiplier)).1,
        min delayMs opts.maxDelayMs ::
          (backoffLoop fn opts fuel' (attempt + 1) (delayMs * opts.backoffMultiplier)).2) := by
  simp only [backoffLoop, he, hr, if_pos]

theorem backoffLoop_delays_of_alwaysFails {α : Type} (fn : Nat → Except String α)
    (opts : RetryOptions) (hfail : AlwaysFails fn) (hretry : ∀ e, opts.shouldRetry e = true) :
    ∀ fuel attempt delayMs,
      (backoffLoop fn opts fuel attempt delayMs).2 =
        (List.range fuel).map
          (fun i => min (delayMs * opts.backoffMultiplier ^ i) opts.maxDelayMs) := by
  intro fuel
  induction fuel with
  | zero =>
    intro attempt delayMs
    obtain ⟨e, he⟩ := hfail attempt
    rw [backoffLoop_zero fn opts attempt delayMs e he]
    simp
  | succ fuel' ih =>
    intro attempt delayMs
    obtain ⟨e, he⟩ := hfail attempt
    rw [backoffLoop_succ fn opts fuel' attempt delayMs e he (hretry e)]
    have hrange : List.range (fuel' + 1) = 0 :: (List.range fuel').map (· + 1) :=
      List.range_succ_eq_map fuel'
    rw [hrange, List.map_cons, List.map_map]
    refine congrArg₂ _ (by simp) ?_
    rw [ih (attempt + 1) (delayMs * opts.backoffMultiplier)]
    apply List.map_congr_left
    intro i _
    simp only [Function.comp_apply, pow_succ]
    ring_nf

theorem backoffLoop_fst_of_constError {α : Type} (e : String) (opts : RetryOptions) :
    ∀ fuel attempt delayMs,
      (backoffLoop (fun _ => (Except.error e : Except String α)) opts fuel attempt delayMs).1 =
        Except.error e := by
  intro fuel
  induction fuel with
  | zero => intro attempt delayMs; rfl
  | succ fuel' ih =>
    intro attempt delayMs
    simp only [backoffLoop]
    split
    · exact ih (attempt + 1) (delayMs * opts.backoffMultiplier)
    · rfl

/-! ## Dataset export verification (src/backup/sanity-export.ts)

The close handler of the spawned Sanity CLI process: on exit code `0` it
stats `data.ndjson` (`statResult` is the byte size, or the failure message
of the `stat` call) and rejects with `Export file is empty` when the size
is zero; a stat failure rejects with an `Export verification failed`
message; a non-zero exit code rejects with the CLI error output
(`stderr`, falling back to `stdout`, falling back to `Unknown error`). -/

def exportVerify (code : Int) (statResult : Except String Nat)
    (stderrOut stdoutOut : String) : Except String Unit :=
  if code = 0 then
    match statResult with
    | Except.error m => Except.error ("Export verification failed: " ++ m)
    | Except.ok size =>
      if size = 0 then Except.error "Export file is empty"
      else Except.ok ()
  else
    Except.error ("Sanity export failed with code " ++ toString code ++ ": " ++
      (if stderrOut ≠ "" then stderrOut
       else if stdoutOut ≠ "" then stdoutOut else "Unknown error"))

/-- The export stage of `runBackup`: the export operation wrapped in
`withRetry(fn, 3, 1000)`. -/
def runBackupExportStage (fn : Nat → Except String Unit) :
    Except String Unit × List Nat :=
  withRetry fn 3 1000

/-- C6: For `withExponentialBackoff` with initialDelay=10, multiplier=2,
maxRetries=3 and an operation that always fails, the delays passed to the
retry callback are exactly [10, 20, 40]; with initialDelay=100,
maxDelay=300 and 5 retries the delays are exactly [100, 200, 300, 300,
300]; in general each waited delay is `min(currentDelay, maxDelay)` where
the current delay starts at the initial delay and is multiplied by the
backoff multiplier after each retry. -/
theorem retry_delay_sequences {α : Type} (fn : Nat → Except String α)
    (hfail : AlwaysFails fn) :
    (withExponentialBackoff fn
        { maxRetries := 3, initialDelayMs := 10, maxDelayMs := 30000
          backoffMultiplier := 2, shouldRetry := fun _ => true }).2 = [10, 20, 40] ∧
    (withExponentialBackoff fn
        { maxRetries := 5, initialDelayMs := 100, maxDelayMs := 300
          backoffMultiplier := 2, shouldRetry := fun _ => true }).2 =
      [100, 200, 300, 300, 300] ∧
    ∀ opts : RetryOptions, (∀ e, opts.shouldRetry e = true) →
      (withExponentialBackoff fn opts).2 =
        (List.range opts.maxRetries).map
          (fun i => min (opts.initialDelayMs * opts.backoffMultiplier ^ i) opts.maxDelayMs) := by
  have hgen : ∀ opts : RetryOptions, (∀ e, opts.shouldRetry e = true) →
      (withExponentialBackoff fn opts).2 =
        (List.range opts.maxRetries).map
          (fun i => min (opts.initialDelayMs * opts.backoffMultiplier ^ i) opts.maxDelayMs) := by
    intro opts hr
    exact backoffLoop_delays_of_alwaysFails fn opts hfail hr opts.maxRetries 0
      opts.initialDelayMs
  refine ⟨?_, ?_, hgen⟩
  · rw [hgen _ (fun _ => rfl)]; decide
  · rw [hgen _ (fun _ => rfl)]; decide

/-- Witness for `retry_delay_sequences` at a concrete always-failing
operation. -/
theorem retry_delay_sequences_witness :
    (withExponentialBackoff (fun _ => (Except.error "boom" : Except String Unit))
        { maxRetries := 3, initialDelayMs := 10, maxDelayMs := 30000
          backoffMultiplier := 2, shouldRetry := fun _ => true }).2 = [10, 20, 40] ∧
    (withExponentialBackoff (fun _ => (Except.error "boom" : Except String Unit))
        { maxRetries := 5, initialDelayMs := 100, maxDelayMs := 300
          backoffMultiplier := 2, shouldRetry := fun _ => true }).2 =
      [100, 200, 300, 300, 300] := by
  have h := retry_delay_sequences (fun _ => (Except.error "boom" : Except String Unit))
    (fun _ => ⟨"boom", rfl⟩)
  exact ⟨h.1, h.2.1⟩

/-- C2 counterexample: in `runBackup` the export stage is wrapped in
`withRetry(fn, 3, 1000)` whose retry predicate defaults to retrying every
error; an export that always reports success with a zero-byte
`data.ndjson` is therefore retried three further times (with delays 1000,
2000, 4000 ms) before the `Export file is empty` error finally
propagates — contradicting the claim that no further export attempt is
ever made for this error. -/
theorem empty_export_retried_counterexample :
    runBackupExportStage (fun _ => exportVerify 0 (Except.ok 0) "" "") =
      (Except.error "Export file is empty", [1000, 2000, 4000]) := by
  rfl

/-- C2 amended: if the dataset export reports success (exit code 0) but
`data.ndjson` has zero bytes, the attempt fails with the
`Export file is empty` error; this error is not classified specially —
under any retry configuration of `withRetry` (whose predicate retries
every error) the export is re-attempted after each such failure, the
retry callback fires once per configured retry, and the pipeline fails
with the same error only after all attempts are exhausted. -/
theorem empty_export_fails_but_is_retried (maxRetries delayMs : Nat) :
    (withRetry (fun _ => exportVerify 0 (Except.ok 0) "" "") maxRetries delayMs).1 =
      Except.error "Export file is empty" ∧
    (withRetry (fun _ => exportVerify 0 (Except.ok 0) "" "") maxRetries delayMs).2.length =
      maxRetries := by
  have hval : (fun _ => exportVerify 0 (Except.ok 0) "" "") =
      (fun _ : Nat => (Except.error "Export file is empty" : Except String Unit)) := rfl
  constructor
  · rw [hval]
    exact backoffLoop_fst_of_constError _ _ maxRetries 0 delayMs
  · have h := backoffLoop_delays_of_alwaysFails
      (fun _ => exportVerify 0 (Except.ok 0) "" "")
      { maxRetries := maxRetries, initialDelayMs := delayMs, maxDelayMs := 30000
        backoffMultiplier := 2, shouldRetry := fun _ => true }
      (fun _ => ⟨"Export file is empty", rfl⟩) (fun _ => rfl) maxRetries 0 delayMs
    simpa [withRetry, withExponentialBackoff] using congrArg List.length h

/-! ## R2 storage client (src/backup/r2-upload.ts) -/

inductive TransferStrategy
  | singleShot
  | multipart (partSizeBytes queueSize : Nat)
deriving DecidableEq

/-- Transfer strategy chosen by `uploadToR2` for a file of the given size:
the source builds one `PutObjectCommand` carrying the whole file as body
and sends it once; there is no size-dependent branch and no multipart
transfer path in the function. -/
def uploadTransferStrategy (fileSizeBytes : Nat) : TransferStrategy :=
  TransferStrategy.singleShot

/-- Modelled from the spec (and the r2-upload tests of the repository and
CLAUDE.md): files at or above the 100 MiB threshold use a multipart
transfer with 10 MiB parts and 4 concurrent parts; smaller files use a
single-shot transfer. -/
def specTransferStrategy (fileSizeBytes : Nat) : TransferStrategy :=
  if 100 * 1024 * 1024 ≤ fileSizeBytes then
    TransferStrategy.multipart (10 * 1024 * 1024) 4
  else TransferStrategy.singleShot

/-- C3 (code bug): for a 150 MiB file the source still chooses a
single-shot `PutObjectCommand`, while the size-threshold contract asserted
by the spec and by the tests of the repository requires a multipart
transfer with 10 MiB parts and 4 concurrent parts. -/
theorem upload_strategy_ignores_size_bug :
    uploadTransferStrategy (150 * 1024 * 1024) = TransferStrategy.singleShot ∧
    specTransferStrategy (150 * 1024 * 1024) =
      TransferStrategy.multipart (10 * 1024 * 1024) 4 ∧
    uploadTransferStrategy (150 * 1024 * 1024) ≠
      specTransferStrategy (150 * 1024 * 1024) := by
  refine ⟨rfl, ?_, ?_⟩ <;> simp [specTransferStrategy, uploadTransferStrategy]

/-- Rendering of the head-response `ContentLength` inside the mismatch
message (`undefined` when the metadata read-back returned no length). -/
def contentLengthString : Option Nat → String
  | none => "undefined"
  | some n => toString n

/-- The post-upload verification of `uploadToR2`: after the
`PutObjectCommand` succeeded, a `HeadObjectCommand` is issued and the
returned `ContentLength` is compared with the local file size; any
difference throws the size-mismatch error. -/
def uploadVerifyCheck (localSize : Nat) (remoteContentLength : Option Nat) :
    Except String Unit :=
  if remoteContentLength ≠ some localSize then
    Except.error ("Upload verification failed: size mismatch (expected " ++
      toString localSize ++ ", got " ++ contentLengthString remoteContentLength ++ ")")
  else Except.ok ()

/-- Continuation of `uploadToR2` after a successful write: the
verification error is caught by the surrounding handler and re-thrown
wrapped in `R2 upload failed: `. -/
def uploadToR2AfterPut (localSize : Nat) (remoteContentLength : Option Nat) :
    Except String Unit :=
  match uploadVerifyCheck localSize remoteContentLength with
  | Except.error m => Except.error ("R2 upload failed: " ++ m)
  | Except.ok _ => Except.ok ()

/-- C5: after a successful upload write, `uploadToR2` reads back the
remote metadata and compares the returned content length to the local
file size; every mismatch (including a missing length) makes the upload
fail with the size-mismatch verification error even though the write call
itself succeeded. -/
theorem upload_size_mismatch_fails (localSize : Nat) (remoteContentLength : Option Nat)
    (hmismatch : remoteContentLength ≠ some localSize) :
    uploadToR2AfterPut localSize remoteContentLength =
      Except.error ("R2 upload failed: " ++
        ("Upload verification failed: size mismatch (expected " ++ toString localSize ++
          ", got " ++ contentLengthString remoteContentLength ++ ")")) := by
  simp [uploadToR2AfterPut, uploadVerifyCheck, hmismatch]

/-- Witness for `upload_size_mismatch_fails`: local size 10, remote
read-back 9. -/
theorem upload_size_mismatch_fails_witness :
    uploadToR2AfterPut 10 (some 9) =
      Except.error ("R2 upload failed: " ++
        ("Upload verification failed: size mismatch (expected " ++ toString 10 ++
          ", got " ++ contentLengthString (some 9) ++ ")")) :=
  upload_size_mismatch_fails 10 (some 9) (by decide)

/-! ## Retention manager (`deleteOldBackups` in src/backup/r2-upload.ts)

The decision logic is embedded as a pure plan over the listing:
`none` means no `DeleteObjectsCommand` is issued at all, `some keys`
means one batch delete of exactly `keys`.  The source sorts with the
comparator `dateB - dateA` (newest first); with pairwise-distinct
last-modified times every comparison sort produces the same unique
descending order, modelled here by `List.insertionSort`. -/

/-- Suffix test on strings, modelling `String.prototype.endsWith` of the
source by a character-list suffix check. -/
def strEndsWith (s suffixStr : String) : Bool :=
  suffixStr.data.isSuffixOf s.data

structure RemoteEntry where
  key : String
  lastModified : Nat
deriving DecidableEq

def newestFirstRel (a b : RemoteEntry) : Prop :=
  b.lastModified ≤ a.lastModified

instance : DecidableRel newestFirstRel :=
  fun a b => Nat.decLe b.lastModified a.lastModified

instance : IsTotal RemoteEntry newestFirstRel :=
  ⟨fun a b => le_total b.lastModified a.lastModified⟩

instance : IsTrans RemoteEntry newestFirstRel :=
  ⟨fun _ _ _ hab hbc => le_trans hbc hab⟩

def sortNewestFirst (l : List RemoteEntry) : List RemoteEntry :=
  l.insertionSort newestFirstRel

/-- The retention decision of `deleteOldBackups`: empty listing returns
early with no delete; otherwise the listing is filtered to `.tar.gz`
keys, sorted newest first, and when more than `retainCount` remain the
entries beyond the first `retainCount` are deleted, each archive key
together with its `.sha256` sidecar key, in one batch. -/
def deleteOldBackupsPlan (contents : List RemoteEntry) (retainCount : Nat) :
    Option (List String) :=
  if contents.isEmpty then none
  else
    let backups := sortNewestFirst (contents.filter (fun o => strEndsWith o.key ".tar.gz"))
    if backups.length ≤ retainCount then none
    else
      let backupsToDelete := backups.drop retainCount
      some (backupsToDelete.flatMap (fun b => [b.key, b.key ++ ".sha256"]))

/-- C4: for every listing of archive entries with distinct last-modified
timestamps and retention count `k`, `deleteOldBackups` issues no delete
call when the listing has at most `k` entries (in particular when it is
empty); otherwise it deletes exactly the entries beyond the `k` newest —
the kept prefix has length `k`, the deleted suffix has length `N - k`,
together they are a permutation of the listing, every kept entry is
strictly newer than every deleted one, and the batch contains, for every
deleted archive key, the key itself followed by its `.sha256` sidecar
key. -/
theorem retention_partition (l : List RemoteEntry) (k : Nat)
    (hdistinct : l.Pairwise (fun a b => a.lastModified ≠ b.lastModified))
    (harchive : ∀ e ∈ l, strEndsWith e.key ".tar.gz" = true) :
    (l.length ≤ k → deleteOldBackupsPlan l k = none) ∧
    (k < l.length →
      deleteOldBackupsPlan l k =
        some (((sortNewestFirst l).drop k).flatMap (fun b => [b.key, b.key ++ ".sha256"])) ∧
      ((sortNewestFirst l).take k).length = k ∧
      ((sortNewestFirst l).drop k).length = l.length - k ∧
      ((sortNewestFirst l).take k ++ (sortNewestFirst l).drop k).Perm l ∧
      ∀ a ∈ (sortNewestFirst l).take k, ∀ b ∈ (sortNewestFirst l).drop k,
        b.lastModified < a.lastModified) := by
  have hfilter : l.filter (fun o => strEndsWith o.key ".tar.gz") = l :=
    List.filter_eq_self.mpr harchive
  have hperm : (sortNewestFirst l).Perm l := List.perm_insertionSort newestFirstRel l
  have hlen : (sortNewestFirst l).length = l.length := hperm.length_eq
  constructor
  · intro hle
    simp only [deleteOldBackupsPlan, hfilter, hlen]
    by_cases hemp : l.isEmpty = true
    · simp [hemp]
    · simp [hemp, hle]
  · intro hlt
    have hemp : l.isEmpty = false := by
      cases l with
      | nil => simp at hlt
      | cons a t => rfl
    have hnotle : ¬ l.length ≤ k := by omega
    refine ⟨?_, ?_, ?_, ?_, ?_⟩
    · simp [deleteOldBackupsPlan, hfilter, hlen, hemp, hnotle]
    · rw [List.length_take, hlen]; omega
    · rw [List.length_drop, hlen]
    · rw [List.take_append_drop]; exact hperm
    · intro a ha b hb
      have hsorted : List.Sorted newestFirstRel (sortNewestFirst l) :=
        List.sorted_insertionSort newestFirstRel l
      have hle2 : b.lastModified ≤ a.lastModified :=
        hsorted.rel_of_mem_take_of_mem_drop ha hb
      have hpair : (sortNewestFirst l).Pairwise
          (fun a b => a.lastModified ≠ b.lastModified) := by
        refine (List.Perm.pairwise_iff ?_ hperm).mpr hdistinct
        intro x y hxy
        exact fun h => hxy h.symm
      have hne : a.lastModified ≠ b.lastModified := by
        rw [← List.take_append_drop k (sortNewestFirst l)] at hpair
        exact (List.pairwise_append.mp hpair).2.2 a ha b hb
      exact lt_of_le_of_ne hle2 (fun h => hne h.symm)

/-- Witness for `retention_partition` on a concrete three-entry listing
with retention count 1: the two older entries and their sidecars are
deleted in one batch. -/
theorem retention_partition_witness :
    deleteOldBackupsPlan
      [{ key := "a.tar.gz", lastModified := 3 },
       { key := "b.tar.gz", lastModified := 1 },
       { key := "c.tar.gz", lastModified := 2 }] 1 =
      some ["c.tar.gz", "c.tar.gz.sha256", "b.tar.gz", "b.tar.gz.sha256"] := by
  have h := ((retention_partition
    [{ key := "a.tar.gz", lastModified := 3 },
     { key := "b.tar.gz", lastModified := 1 },
     { key := "c.tar.gz", lastModified := 2 }] 1
    (by decide) (by decide)).2 (by decide)).1
  rw [h]
  decide

/-! ## Checksum sidecar files (src/utils/checksum.ts and runBackup)

`runBackup` writes the sidecar as the line
`` `${checksum}  ${filename}\n` ``.  `parseChecksumFile` splits the
content on newlines, trims every line, skips blank lines, matches the
trimmed line against the anchored case-insensitive regular expression
`([a-f0-9]+)` then whitespace then `(.+)`, and on a match stores
`filename.trim() -> checksum.toLowerCase()` in a map.  The regular
expression is embedded by its exact match semantics: the first group takes
the maximal nonempty run of hexadecimal characters (no shorter split can
match, since the character after a shorter hex prefix is again a
hexadecimal character, not whitespace), the whitespace run is maximal,
and the final group takes the nonempty remainder provided none of its
characters is a line terminator (which `.` cannot match); when the
remainder would be empty backtracking lets the final group take the last
whitespace character provided at least one whitespace character remains
before it and that character is not a line terminator. -/

def isHexDigitChar (c : Char) : Bool :=
  (decide ('0' ≤ c) && decide (c ≤ '9')) ||
  (decide ('a' ≤ c) && decide (c ≤ 'f')) ||
  (decide ('A' ≤ c) && decide (c ≤ 'F'))

/-- Whitespace as matched by `\s` and removed by `trim`: the ECMAScript
WhiteSpace and LineTerminator sets -- tab, line feed, vertical tab, form
feed, carriage return, space, no-break space U+00A0, U+1680, the Zs run
U+2000 to U+200A, the line and paragraph separators U+2028 and U+2029,
U+202F, U+205F, the ideographic space U+3000, and the zero-width no-break
space U+FEFF. -/
def isJsSpace (c : Char) : Bool :=
  c == '\t' || c == '\n' || c == '\x0b' || c == '\x0c' || c == '\r' || c == ' ' ||
  c == '\u00A0' || c == '\u1680' ||
  c == '\u2028' || c == '\u2029' || c == '\u202F' || c == '\u205F' ||
  c == '\u3000' || c == '\uFEFF' ||
  (decide ('\u2000' <= c) && decide (c <= '\u200A'))

/-- ECMAScript LineTerminator: the code points that `.` (without the `s`
flag) refuses to match -- line feed, carriage return, line separator
U+2028 and paragraph separator U+2029. -/
def isLineTerminator (c : Char) : Bool :=
  c == '\n' || c == '\r' || c == '\u2028' || c == '\u2029'

/-- JavaScript `String.prototype.trim` on character lists. -/
def jsTrim (l : List Char) : List Char :=
  ((l.dropWhile isJsSpace).reverse.dropWhile isJsSpace).reverse

/-- JavaScript `String.prototype.split('\n')` on character lists. -/
def splitLines : List Char → List (List Char)
  | [] => [[]]
  | c :: cs =>
    if c = '\n' then [] :: splitLines cs
    else
      match splitLines cs with
      | [] => [[c]]
      | h :: t => (c :: h) :: t

/-- Match of the trimmed line against `^([a-f0-9]+)\s+(.+)$` (with the
case-insensitive flag), returning the two captured groups.  The final
group consists of `.` repetitions, and `.` refuses every LineTerminator
code point, so the remainder matches only when it is free of line
terminators; in the backtracking case the single whitespace character
handed back by `\s+` must itself not be a line terminator. -/
def matchChecksumLine (l : List Char) : Option (List Char × List Char) :=
  let hexRun := l.takeWhile isHexDigitChar
  let rest := l.dropWhile isHexDigitChar
  if hexRun.isEmpty then none
  else
    let wsRun := rest.takeWhile isJsSpace
    let rem := rest.dropWhile isJsSpace
    if wsRun.isEmpty then none
    else if rem.isEmpty then
      if 2 ≤ wsRun.length then
        let captured := wsRun.drop (wsRun.length - 1)
        if captured.any isLineTerminator then none
        else some (hexRun, captured)
      else none
    else
      if rem.any isLineTerminator then none
      else some (hexRun, rem)

/-- JavaScript `Map.prototype.set`: overwrite the value of an existing
key in place, otherwise append the new entry. -/
def assocSet (m : List (List Char × List Char)) (k v : List Char) :
    List (List Char × List Char) :=
  if m.any (fun p => p.1 == k) then m.map (fun p => if p.1 == k then (k, v) else p)
  else m ++ [(k, v)]

def parseChecksumFileL (content : List Char) : List (List Char × List Char) :=
  (splitLines content).foldl
    (fun acc line =>
      let t := jsTrim line
      if t.isEmpty then acc
      else
        match matchChecksumLine t with
        | none => acc
        | some (hex, fname) => assocSet acc (jsTrim fname) (hex.map Char.toLower))
    []

/-- Result of `parseChecksumFile` as a map from filename to lowercase digest,
in insertion order. -/
def parseChecksumFile (content : String) : List (String × String) :=
  (parseChecksumFileL content.data).map (fun p => (String.mk p.1, String.mk p.2))

/-- The sidecar line written by `runBackup` for the archive checksum. -/
def sidecarLine (checksum fileName : String) : String :=
  checksum ++ "  " ++ fileName ++ "\n"

/-- JavaScript `String.prototype.toLowerCase` (ASCII part, which covers
hexadecimal digests). -/
def jsToLowerCase (s : String) : String :=
  String.mk (s.data.map Char.toLower)

theorem data_append (a b : String) : (a ++ b).data = a.data ++ b.data := by
  cases a; cases b; rfl

theorem hex_not_space {c : Char} (h : isHexDigitChar c = true) : isJsSpace c = false := by
  by_contra hne
  have hs : isJsSpace c = true := by
    cases hval : isJsSpace c
    · exact absurd hval hne
    · rfl
  simp only [isJsSpace, Bool.or_eq_true, Bool.and_eq_true, beq_iff_eq,
    decide_eq_true_eq] at hs
  rcases hs with (((((((((((((h1|h1)|h1)|h1)|h1)|h1)|h1)|h1)|h1)|h1)|h1)|h1)|h1)|h1)|⟨h2, h3⟩
  all_goals try (subst h1; exact absurd h (by decide))
  simp only [isHexDigitChar, Bool.or_eq_true, Bool.and_eq_true,
    decide_eq_true_eq] at h
  rcases h with (⟨_, hhi⟩ | ⟨_, hhi⟩) | ⟨_, hhi⟩ <;>
    exact absurd (le_trans h2 hhi) (by decide)

theorem hex_ne_newline {c : Char} (h : isHexDigitChar c = true) : c ≠ '\n' := by
  intro hc
  subst hc
  exact absurd h (by decide)

theorem takeWhile_append_all {α : Type} (p : α → Bool) (l1 l2 : List α)
    (h : ∀ a ∈ l1, p a = true) :
    (l1 ++ l2).takeWhile p = l1 ++ l2.takeWhile p := by
  induction l1 with
  | nil => simp
  | cons a t ih =>
    have ha : p a = true := h a (by simp)
    simp only [List.cons_append, List.takeWhile_cons, ha, if_true]
    rw [ih (fun b hb => h b (by simp [hb]))]

theorem dropWhile_append_all {α : Type} (p : α → Bool) (l1 l2 : List α)
    (h : ∀ a ∈ l1, p a = true) :
    (l1 ++ l2).dropWhile p = l2.dropWhile p := by
  induction l1 with
  | nil => simp
  | cons a t ih =>
    have ha : p a = true := h a (by simp)
    simp only [List.cons_append, List.dropWhile_cons, ha, if_true]
    exact ih (fun b hb => h b (by simp [hb]))

theorem takeWhile_cons_neg {α : Type} (p : α → Bool) (a : α) (l : List α)
    (h : p a = false) : (a :: l).takeWhile p = [] := by
  simp [List.takeWhile_cons, h]

theorem dropWhile_cons_neg {α : Type} (p : α → Bool) (a : α) (l : List α)
    (h : p a = false) : (a :: l).dropWhile p = a :: l := by
  simp [List.dropWhile_cons, h]

theorem splitLines_no_newline (l : List Char) (h : '\n' ∉ l) : splitLines l = [l] := by
  induction l with
  | nil => rfl
  | cons c cs ih =>
    have hc : ¬ c = '\n' := fun hc => h (by simp [hc])
    have hcs : '\n' ∉ cs := fun hm => h (by simp [hm])
    simp only [splitLines, if_neg hc, ih hcs]

theorem splitLines_append_newline (l r : List Char) (h : '\n' ∉ l) :
    splitLines (l ++ '\n' :: r) = l :: splitLines r := by
  induction l with
  | nil => simp [splitLines]
  | cons c cs ih =>
    have hc : ¬ c = '\n' := fun hc => h (by simp [hc])
    have hcs : '\n' ∉ cs := fun hm => h (by simp [hm])
    simp only [List.cons_append, splitLines, if_neg hc, List.append_eq]
    rw [ih hcs]

theorem head_false_of_takeWhile_nil {α : Type} {p : α → Bool} {a : α} {t : List α}
    (h : (a :: t).takeWhile p = []) : p a = false := by
  cases hp : p a
  · rfl
  · rw [List.takeWhile_cons, hp] at h
    simp at h

theorem dropWhile_of_takeWhile_nil {α : Type} (p : α → Bool) (l : List α)
    (h : l.takeWhile p = []) : l.dropWhile p = l := by
  cases l with
  | nil => rfl
  | cons a t => exact dropWhile_cons_neg p a t (head_false_of_takeWhile_nil h)

theorem parseChecksumFileL_sidecar (d f s : List Char)
    (hd : d ≠ [])
    (hdhex : ∀ c ∈ d, isHexDigitChar c = true)
    (hf : f ≠ [])
    (hfLT : f.any isLineTerminator = false)
    (hfhead : f.takeWhile isJsSpace = [])
    (hflast : f.reverse.takeWhile isJsSpace = [])
    (hsn : '\n' ∉ s)
    (hbad : jsTrim s = [] ∨ matchChecksumLine (jsTrim s) = none) :
    parseChecksumFileL (d ++ ' ' :: ' ' :: (f ++ '\n' :: s)) =
      [(f, d.map Char.toLower)] := by
  obtain ⟨c, d', rfl⟩ := List.exists_cons_of_ne_nil hd
  obtain ⟨a, f', rfl⟩ := List.exists_cons_of_ne_nil hf
  obtain ⟨b, g, hrev⟩ := List.exists_cons_of_ne_nil
    (show (a :: f').reverse ≠ [] by simp)
  have hchex : isHexDigitChar c = true := hdhex c (by simp)
  have hcns : isJsSpace c = false := hex_not_space hchex
  have hans : isJsSpace a = false := head_false_of_takeWhile_nil hfhead
  have hbns : isJsSpace b = false := by
    have := hflast
    rw [hrev] at this
    exact head_false_of_takeWhile_nil this
  have hfn : '\n' ∉ (a :: f') := by
    intro hm
    rw [List.any_eq_false] at hfLT
    exact hfLT '\n' hm (by decide)
  have hLnn : '\n' ∉ (c :: d') ++ ' ' :: ' ' :: (a :: f') := by
    intro hm
    rcases List.mem_append.mp hm with hm | hm
    · exact hex_ne_newline (hdhex _ hm) rfl
    · simp only [List.mem_cons] at hm
      rcases hm with h1 | h1 | h1 | h1
      · exact absurd h1 (by decide)
      · exact absurd h1 (by decide)
      · rw [← h1] at hans
        exact absurd hans (by decide)
      · exact hfn (by simp [h1])
  have hTrimF : jsTrim (a :: f') = a :: f' := by
    unfold jsTrim
    rw [dropWhile_of_takeWhile_nil _ _ hfhead, dropWhile_of_takeWhile_nil _ _ hflast,
      List.reverse_reverse]
  have hLrev : ((c :: d') ++ ' ' :: ' ' :: (a :: f')).reverse =
      b :: (g ++ [' ', ' '] ++ (c :: d').reverse) := by
    rw [List.reverse_append]
    have h2 : (' ' :: ' ' :: (a :: f')).reverse = (a :: f').reverse ++ [' ', ' '] := by
      simp
    rw [h2, hrev]
    simp
  have hTrimL : jsTrim ((c :: d') ++ ' ' :: ' ' :: (a :: f')) =
      (c :: d') ++ ' ' :: ' ' :: (a :: f') := by
    unfold jsTrim
    rw [List.cons_append, dropWhile_cons_neg _ _ _ hcns, ← List.cons_append, hLrev,
      dropWhile_cons_neg _ _ _ hbns, ← hLrev, List.reverse_reverse]
  have hwsp : isJsSpace ' ' = true := by decide
  have hhexsp : isHexDigitChar ' ' = false := by decide
  have hMatch : matchChecksumLine ((c :: d') ++ ' ' :: ' ' :: (a :: f')) =
      some (c :: d', a :: f') := by
    simp only [matchChecksumLine]
    rw [takeWhile_append_all _ _ _ hdhex, takeWhile_cons_neg _ _ _ hhexsp,
      List.append_nil, dropWhile_append_all _ _ _ hdhex, dropWhile_cons_neg _ _ _ hhexsp]
    have hws : (' ' :: ' ' :: (a :: f')).takeWhile isJsSpace = [' ', ' '] := by
      rw [List.takeWhile_cons, if_pos hwsp, List.takeWhile_cons, if_pos hwsp,
        takeWhile_cons_neg _ _ _ hans]
    have hrem : (' ' :: ' ' :: (a :: f')).dropWhile isJsSpace = a :: f' := by
      rw [List.dropWhile_cons, if_pos hwsp, List.dropWhile_cons, if_pos hwsp,
        dropWhile_cons_neg _ _ _ hans]
    rw [hws, hrem]
    simp [hfLT]
  have hsplit : (c :: d') ++ ' ' :: ' ' :: ((a :: f') ++ '\n' :: s) =
      ((c :: d') ++ ' ' :: ' ' :: (a :: f')) ++ '\n' :: s := by
    simp [List.append_assoc]
  rw [hsplit]
  unfold parseChecksumFileL
  rw [splitLines_append_newline _ _ hLnn, splitLines_no_newline s hsn]
  simp only [List.foldl_cons, List.foldl_nil]
  rw [hTrimL]
  have hne : ((c :: d') ++ ' ' :: ' ' :: (a :: f')).isEmpty = false := by
    rw [List.cons_append]
    rfl
  rw [hne]
  simp only [Bool.false_eq_true, if_false]
  rw [hMatch]
  simp only []
  rw [hTrimF]
  have hset : assocSet [] (a :: f') ((c :: d').map Char.toLower) =
      [(a :: f', (c :: d').map Char.toLower)] := by
    simp [assocSet]
  rw [hset]
  rcases hbad with hb1 | hb1
  · rw [hb1]
    rfl
  · by_cases he : (jsTrim s).isEmpty
    · simp [he]
    · simp only [he, Bool.false_eq_true, if_false, hb1]

/-- C7: formatting a checksum sidecar line as digest, two spaces, filename
(as `runBackup` writes it) and parsing the result with `parseChecksumFile`
recovers exactly the pair of the lowercased digest and the filename, for
every nonempty hex digest and every filename that contains no ECMAScript
line terminator and no leading or trailing JavaScript whitespace (the
Unicode set trimmed by `trim` and matched by the `\s` of the pattern) —
in particular filenames containing internal spaces; appending a further line that does not match the
hex-whitespace-rest pattern (including a blank line) is silently skipped:
parsing still returns exactly the same single entry and never throws (the
parser is a total function). -/
theorem sidecar_round_trip (d f badLine : String)
    (hd : d.data ≠ [])
    (hdhex : ∀ c ∈ d.data, isHexDigitChar c = true)
    (hf : f.data ≠ [])
    (hfLT : f.data.any isLineTerminator = false)
    (hfhead : f.data.takeWhile isJsSpace = [])
    (hflast : f.data.reverse.takeWhile isJsSpace = [])
    (hbn : '\n' ∉ badLine.data)
    (hbad : jsTrim badLine.data = [] ∨ matchChecksumLine (jsTrim badLine.data) = none) :
    parseChecksumFile (sidecarLine d f) = [(f, jsToLowerCase d)] ∧
    parseChecksumFile (sidecarLine d f ++ badLine) = [(f, jsToLowerCase d)] := by
  have hdata : ∀ s : String, (sidecarLine d f ++ s).data =
      d.data ++ ' ' :: ' ' :: (f.data ++ '\n' :: s.data) := by
    intro s
    show ((d ++ "  " ++ f ++ "\n") ++ s).data = _
    rw [data_append, data_append, data_append, data_append]
    simp [List.append_assoc]
  have hmain : ∀ s : String, '\n' ∉ s.data →
      (jsTrim s.data = [] ∨ matchChecksumLine (jsTrim s.data) = none) →
      parseChecksumFile (sidecarLine d f ++ s) = [(f, jsToLowerCase d)] := by
    intro s hsn hsbad
    unfold parseChecksumFile
    rw [hdata s, parseChecksumFileL_sidecar d.data f.data s.data hd hdhex hf hfLT
      hfhead hflast hsn hsbad]
    rfl
  constructor
  · have h := hmain "" (by simp) (Or.inl rfl)
    rw [← h]
    have : sidecarLine d f ++ "" = sidecarLine d f := by
      show String.mk ((sidecarLine d f).data ++ "".data) = sidecarLine d f
      simp
    rw [this]
  · exact hmain badLine hbn hbad

/-- Witness for `sidecar_round_trip`: mixed-case digest `A1b2`, filename
`my file.txt` with an internal space, and the junk line
`not a valid line`. -/
theorem sidecar_round_trip_witness :
    parseChecksumFile (sidecarLine "A1b2" "my file.txt") =
      [("my file.txt", jsToLowerCase "A1b2")] ∧
    parseChecksumFile (sidecarLine "A1b2" "my file.txt" ++ "not a valid line") =
      [("my file.txt", jsToLowerCase "A1b2")] :=
  sidecar_round_trip "A1b2" "my file.txt" "not a valid line"
    (by decide) (by decide) (by decide) (by decide) (by decide) (by decide)
    (by decide) (by decide)

/-! ## Notifier (src/backup/notifications.ts)

`sendNotification` returns immediately (after an info log, with no network
call) when `SLACK_WEBHOOK_URL` is absent.  Otherwise it builds the Slack
message (pure code that cannot throw), issues one `fetch`, throws inside
the `try` block on a non-success HTTP status, and the surrounding `catch`
logs every failure without re-throwing.  The embedding takes the webhook
configuration and the fetch outcome as inputs and returns the observable
trace: number of network calls, the error propagated to the caller (if
any), and the error logged (if any). -/

inductive FetchOutcome
  | ok
  | httpError (status : Nat) (body : String)
  | transportError (msg : String)

structure NotifyTrace where
  fetchCalls : Nat
  thrownToCaller : Option String
  loggedError : Option String
deriving DecidableEq

/-- Outcome of the body of the `try` block: success on a 2xx response,
the `Slack API error` throw on a non-success status, the transport
rejection when `fetch` itself fails. -/
def notifyAttempt : FetchOutcome → Except String Unit
  | FetchOutcome.ok => Except.ok ()
  | FetchOutcome.httpError status body =>
      Except.error ("Slack API error: " ++ toString status ++ " - " ++ body)
  | FetchOutcome.transportError msg => Except.error msg

def errOf : Except String Unit → Option String
  | Except.ok _ => none
  | Except.error e => some e

def sendNotification (webhookUrl : Option String) (fetchResult : FetchOutcome) :
    NotifyTrace :=
  match webhookUrl with
  | none => { fetchCalls := 0, thrownToCaller := none, loggedError := none }
  | some _ =>
    match notifyAttempt fetchResult with
    | Except.ok _ => { fetchCalls := 1, thrownToCaller := none, loggedError := none }
    | Except.error e => { fetchCalls := 1, thrownToCaller := none, loggedError := some e }

/-- C8: `sendNotification` never raises to its caller; with no webhook URL
configured it makes no network call, and with a URL configured it makes
exactly one call and logs (rather than propagates) the delivery failure,
whether a transport error or a non-success HTTP status. -/
theorem notification_never_propagates (webhookUrl : Option String)
    (fetchResult : FetchOutcome) :
    (sendNotification webhookUrl fetchResult).thrownToCaller = none ∧
    (sendNotification none fetchResult).fetchCalls = 0 ∧
    ∀ url, (sendNotification (some url) fetchResult).fetchCalls = 1 ∧
      (sendNotification (some url) fetchResult).loggedError =
        errOf (notifyAttempt fetchResult) := by
  refine ⟨?_, ?_, ?_⟩
  · cases webhookUrl <;> cases h : notifyAttempt fetchResult <;>
      simp [sendNotification, h]
  · rfl
  · intro url
    cases h : notifyAttempt fetchResult <;> simp [sendNotification, h, errOf]

/-- The error truncation applied to the failure-notification text
(`truncateError` in src/backup/notifications.ts; the notification builder
calls it with the default cap of 500). -/
def truncateError (error : String) (maxLength : Nat) : String :=
  if error.length ≤ maxLength then error
  else String.mk (error.data.take (maxLength - 3)) ++ "..."

/-- C10: for every error string of length at most 500 the
failure-notification error text is the input unchanged; for every longer
string it is the first 497 characters followed by three dots, so the
rendered text never exceeds 500 characters and the truncation marker
counts within the cap. -/
theorem truncate_error_cap (s : String) :
    (s.length ≤ 500 → truncateError s 500 = s) ∧
    (500 < s.length → truncateError s 500 = String.mk (s.data.take 497) ++ "...") ∧
    (truncateError s 500).length = min s.length 500 := by
  by_cases h : s.length ≤ 500
  · refine ⟨fun _ => ?_, fun hgt => absurd h (by omega), ?_⟩
    · simp [truncateError, h]
    · simp [truncateError, h]
  · refine ⟨fun hle => absurd hle h, fun _ => ?_, ?_⟩
    · simp [truncateError, h]
    · have hlen : s.data.length = s.length := rfl
      simp only [truncateError, h, if_false]
      have : (String.mk (s.data.take 497) ++ "...").length =
          (s.data.take 497).length + 3 := by
        rw [String.length_append]
        rfl
      rw [this, List.length_take, hlen]
      omega

set_option maxRecDepth 10000 in
/-- Witness for `truncate_error_cap`: a short message passes unchanged; a
501-character message is cut to 497 characters plus the marker. -/
theorem truncate_error_cap_witness :
    truncateError "boom" 500 = "boom" ∧
    truncateError (String.mk (List.replicate 501 'x')) 500 =
      String.mk (List.replicate 497 'x') ++ "..." := by
  constructor
  · exact (truncate_error_cap "boom").1 (by decide)
  · have h := (truncate_error_cap (String.mk (List.replicate 501 'x'))).2.1 (by decide)
    rw [h]
    decide

/-! ## Backup orchestrator (src/backup/index.ts)

`runBackup` derives a timestamp token from the ISO-8601 UTC
timestamp by replacing every colon and dot with a dash, builds the upload
key directly as projectId/dataset/filename — the inline comment in the
source says `Direct structure: projectId/dataset/filename (no top-level
prefix)` — and uploads the checksum sidecar under the same key with
`.sha256` appended.  The configured storage prefix (environment variable
`R2_PREFIX`, default `sanity`, field `r2Prefix` of the config record,
embedded here as `r2PrefixSetting`) is read into the configuration but
not used in the key. -/

structure BackupConfig where
  projectId : String
  dataset : String
  r2PrefixSetting : String

/-- The timestamp token: `toISOString()` output with every colon and dot
replaced by a dash. -/
def backupTimestamp (iso : String) : String :=
  String.mk (iso.data.map (fun c => if c = ':' ∨ c = '.' then '-' else c))

/-- The object key built by `runBackup` for the archive upload. -/
def objectKey (cfg : BackupConfig) (ts : String) : String :=
  cfg.projectId ++ "/" ++ cfg.dataset ++ "/" ++ cfg.projectId ++ "-" ++ cfg.dataset ++
    "-" ++ ts ++ ".tar.gz"

/-- The key under which `runBackup` uploads the checksum sidecar. -/
def checksumObjectKey (cfg : BackupConfig) (ts : String) : String :=
  objectKey cfg ts ++ ".sha256"

/-- Modelled from the claim: the key layout asserted by the spec, with a
leading storage-prefix segment (default `sanity`). -/
def claimObjectKey (storagePref projectId dataset ts : String) : String :=
  storagePref ++ "/" ++ projectId ++ "/" ++ dataset ++ "/" ++ projectId ++ "-" ++
    dataset ++ "-" ++ ts ++ ".tar.gz"

/-- Modelled from the amended claim: the same layout with no
storage-prefix segment. -/
def claimObjectKeyNoPref (projectId dataset ts : String) : String :=
  projectId ++ "/" ++ dataset ++ "/" ++ projectId ++ "-" ++ dataset ++ "-" ++ ts ++
    ".tar.gz"

/-- C1 counterexample: with the configured storage prefix at its default
`sanity`, the key `runBackup` actually builds differs from the
spec-claimed `sanity/p/d/p-d-ts.tar.gz` — the code intentionally omits
the prefix segment. -/
theorem object_key_storage_pref_counterexample :
    objectKey { projectId := "p", dataset := "d", r2PrefixSetting := "sanity" }
        "2024-01-15T10-30-45-123Z" ≠
      claimObjectKey "sanity" "p" "d" "2024-01-15T10-30-45-123Z" := by
  decide

/-- C1 amended: for every backup run the uploaded archive key equals
projectId/dataset/projectId-dataset-timestamp.tar.gz with no
storage-prefix segment (the configured prefix, default `sanity`, is not
used in the key), where the timestamp is the ISO-8601 UTC timestamp with
every colon and dot replaced by a dash (so the token itself contains no
colon and no dot), and the checksum sidecar is uploaded under the same
key with `.sha256` appended. -/
theorem object_key_layout (cfg : BackupConfig) (iso : String) :
    objectKey cfg (backupTimestamp iso) =
      claimObjectKeyNoPref cfg.projectId cfg.dataset (backupTimestamp iso) ∧
    checksumObjectKey cfg (backupTimestamp iso) =
      objectKey cfg (backupTimestamp iso) ++ ".sha256" ∧
    (backupTimestamp iso).data.all (fun c => !(c == ':' || c == '.')) = true := by
  refine ⟨rfl, rfl, ?_⟩
  show (iso.data.map _).all _ = true
  rw [List.all_map, List.all_eq_true]
  intro c _
  simp only [Function.comp_apply]
  by_cases h1 : c = ':' ∨ c = '.'
  · rw [if_pos h1]
    decide
  · rw [if_neg h1]
    rcases not_or.mp h1 with ⟨h2, h3⟩
    simp [h2, h3]

/-! ### Control flow of `runBackup` (C9)

The try/catch/finally structure of `runBackup`, embedded over the
outcomes of its individual stages.  The `try` block chains export,
archive, checksum, the two uploads and the retention prune, and ends with
the success notification; the `catch` block sends the failure
notification (which never throws, see `notification_never_propagates`)
and re-raises the original error; the `finally` block removes the
temporary directory inside its own try/catch whose handler only logs a
warning. -/

inductive RunEvent
  | notifySuccess
  | notifyFailure
  | cleanupTempDir
deriving DecidableEq

structure StageOutcomes where
  exportStage : Except String Unit
  archiveStage : Except String Unit
  checksumStage : Except String String
  uploadArchive : Except String Unit
  uploadChecksum : Except String Unit
  retentionStage : Except String Unit
  cleanupStage : Except String Unit

/-- The `try` block of `runBackup`: the first stage error aborts the
remaining stages; on success the checksum is part of the returned
result. -/
def pipelineBody (o : StageOutcomes) : Except String String :=
  o.exportStage.bind (fun _ =>
    o.archiveStage.bind (fun _ =>
      o.checksumStage.bind (fun checksum =>
        o.uploadArchive.bind (fun _ =>
          o.uploadChecksum.bind (fun _ =>
            o.retentionStage.bind (fun _ =>
              Except.ok checksum))))))

def exceptIsOkB {ε α : Type} : Except ε α → Bool
  | Except.ok _ => true
  | Except.error _ => false

structure RunTrace where
  outcome : Except String String
  events : List RunEvent
  cleanupFailureRaised : Bool
  cleanupFailureLogged : Bool

/-- The observable behaviour of one `runBackup` call given its stage
outcomes: what it returns or re-raises, the notification and cleanup
events in order, and how a cleanup failure is handled. -/
def runBackupModel (o : StageOutcomes) : RunTrace :=
  match pipelineBody o with
  | Except.ok r =>
    { outcome := Except.ok r
      events := [RunEvent.notifySuccess, RunEvent.cleanupTempDir]
      cleanupFailureRaised := false
      cleanupFailureLogged := !exceptIsOkB o.cleanupStage }
  | Except.error e =>
    { outcome := Except.error e
      events := [RunEvent.notifyFailure, RunEvent.cleanupTempDir]
      cleanupFailureRaised := false
      cleanupFailureLogged := !exceptIsOkB o.cleanupStage }

/-- C9: `runBackup` removes its temporary directory on every exit path —
the cleanup event occurs both when the pipeline body succeeds and when
any stage fails; a failure of the removal itself is logged but never
escalated; the successful result is returned unchanged, and on a failed
run the original stage error is re-raised unchanged, with the failure
notification attempted before control leaves the function. -/
theorem cleanup_on_every_path (o : StageOutcomes) :
    (runBackupModel o).outcome = pipelineBody o ∧
    RunEvent.cleanupTempDir ∈ (runBackupModel o).events ∧
    (runBackupModel o).cleanupFailureRaised = false ∧
    (runBackupModel o).cleanupFailureLogged = !exceptIsOkB o.cleanupStage ∧
    (runBackupModel o).events =
      (if exceptIsOkB (pipelineBody o) then
        [RunEvent.notifySuccess, RunEvent.cleanupTempDir]
       else [RunEvent.notifyFailure, RunEvent.cleanupTempDir]) := by
  cases h : pipelineBody o <;> simp [runBackupModel, h, exceptIsOkB]

end Infra
